import Mathlib

/-!
Shallow embedding of `runtime/v2/runc/external_rootfs.go` (external-rootfs
mount resolution).  The Go source contains two variants of the resolver: a
layered one (config fields `DeviceConfig`/`DeviceMountOpts`, helper
`externalDevice`) and a simpler one (inline device branch, no layering).
Both are embedded below.  External collaborators (the OCI spec reader, the
filesystem, `encoding/json`) are modelled as explicit inputs: the resolver
takes the process-environment list directly and a filesystem oracle for the
device-descriptor read and `MkdirAll`.
-/

/-- `strings.HasPrefix` / `strings.TrimPrefix` work on character lists here:
`isPfxOf p l` is true when `p` is an initial segment of `l`. -/
def isPfxOf : List Char → List Char → Bool
  | [], _ => true
  | _ :: _, [] => false
  | a :: as, b :: bs => a = b && isPfxOf as bs

/-- Go `strings.HasPrefix s p`. -/
def hasPfx (s p : String) : Bool := isPfxOf p.data s.data

/-- Go `strings.TrimPrefix s p`: drops `p` from the front of `s` when it is
a prefix, otherwise returns `s` unchanged. -/
def trimPfx (s p : String) : String :=
  if isPfxOf p.data s.data then ⟨s.data.drop p.data.length⟩ else s

/-- Go `strings.Split s (String.singleton c)` (equivalently
`strings.SplitN` with limit `-1`): splits around every occurrence of the
separator character; the empty input yields `[[]]`, like Go. -/
def splitChar (c : Char) : List Char → List (List Char)
  | [] => [[]]
  | x :: xs =>
    match splitChar c xs with
    | [] => [[]]
    | h :: t => if x = c then [] :: h :: t else (x :: h) :: t

/-- String-level wrapper for `splitChar`. -/
def splitStr (s : String) (c : Char) : List String :=
  (splitChar c s.data).map String.mk

/-- `mount.Mount` (the fields this code reads and writes). -/
structure Mount where
  type : String
  source : String
  options : List String
  deriving DecidableEq, Repr

/-- Go `type ExternalRootFSDriver string`. -/
abbrev ExternalRootFSDriver := String

/-- Go const `ExternalRootFSPrefix = "EXTERNAL_ROOTFS_"`. -/
def ExternalRootFSPfx : String := "EXTERNAL_ROOTFS_"

/-- Go const `ExternalRootFSDriverOverlay`. -/
def ExternalRootFSDriverOverlay : ExternalRootFSDriver := "overlay"

/-- Go const `ExternalRootFSDriverDevice`. -/
def ExternalRootFSDriverDevice : ExternalRootFSDriver := "device"

/-- Go const `MountConfigName`. -/
def MountConfigName : String := "mounts.json"

/-- `ExternalRootFSConfig` of the layered variant (all seven fields). -/
structure ExternalRootFSConfig where
  Driver : ExternalRootFSDriver
  OverlayLower : String
  OverlayUpper : String
  Device : String
  DeviceFSType : String
  DeviceConfig : String
  DeviceMountOpts : String
  deriving DecidableEq, Repr

/-- `ExternalRootFSConfig` of the simpler variant (five fields, no
`DeviceConfig`/`DeviceMountOpts`). -/
structure ExternalRootFSConfig2 where
  Driver : ExternalRootFSDriver
  OverlayLower : String
  OverlayUpper : String
  Device : String
  DeviceFSType : String
  deriving DecidableEq, Repr

/-- `ExtDevice`, the payload of the secondary device-descriptor file. -/
structure ExtDevice where
  Device : String
  FilesystemType : String
  deriving DecidableEq, Repr

/-- The fatal error cases of the resolver.  `missingDevice` is the error
built by `externalDevice` ("use external deivce as rootfs, but config is
empty"); the others are errors propagated verbatim from external
collaborators (`os.ReadFile`, `json.Unmarshal`, `os.MkdirAll`). -/
inductive RootFSError where
  | deviceConfigRead (path : String)
  | deviceConfigParse (path : String)
  | dirCreate (path : String)
  | missingDevice
  deriving DecidableEq, Repr

/-- Filesystem oracle: `readExtDevice p` models
`os.ReadFile p` followed by `json.Unmarshal` into `ExtDevice` (any failure
of either step is an error value); `mkdirOK p` models whether
`os.MkdirAll p 0777` succeeds. -/
structure FS where
  readExtDevice : String → Except RootFSError ExtDevice
  mkdirOK : String → Bool

/-- One iteration of the env loop in `ReadExternalRootFSConfigFromENV`:
`t := strings.SplitN(env, "=", -1)`; entries with fewer than two segments
are skipped, otherwise the pair `(t[0], t[1])` is produced.  Note the split
is on every `=`, so `t[1]` is the segment between the first and second `=`.
-/
def envKV (e : String) : Option (String × String) :=
  match splitChar '=' e.data with
  | k :: v :: _ => some (String.mk k, String.mk v)
  | _ => none

/-- One step of the env scan, tracking a single map key: entries without
the reserved prefix or without a second `=`-segment leave the accumulator
alone; a kept entry whose first segment equals `key` replaces it
(last-occurrence-wins, as in the Go map assignment). -/
def cmStep (key : String) (acc : String) (e : String) : String :=
  if hasPfx e ExternalRootFSPfx then
    match envKV e with
    | some (k, v) => if k = key then v else acc
    | none => acc
  else acc

/-- The content of the intermediate `configMap` built by the env loop of
`ReadExternalRootFSConfigFromENV`, observed at one exact map key: the
value of the last environment entry that carries the reserved prefix,
splits into at least two `=`-separated segments, and whose first segment
equals `key`; `""` when there is none. -/
def configMapGet (env : List String) (key : String) : String :=
  env.foldl (cmStep key) ""

/-- Go map assignment `configMap[k] = v`: replaces the value when the key
is already present (last occurrence wins), otherwise adds the binding. -/
def mapUpsert (m : List (String × String)) (k v : String) :
    List (String × String) :=
  if m.any (fun p => p.1 = k) then
    m.map (fun p => if p.1 = k then (k, v) else p)
  else m ++ [(k, v)]

/-- One iteration of the env loop acting on the whole `configMap`:
non-prefixed entries and entries without a second `=`-segment are skipped,
kept entries are assigned into the map. -/
def cmlStep (m : List (String × String)) (e : String) :
    List (String × String) :=
  if hasPfx e ExternalRootFSPfx then
    match envKV e with
    | some (k, v) => mapUpsert m k v
    | none => m
  else m

/-- The intermediate `configMap` of `ReadExternalRootFSConfigFromENV` as
an association list with pairwise-distinct keys. -/
def configMapList (env : List String) : List (String × String) :=
  env.foldl cmlStep []

/-- Models Go `encoding/json`'s matching of a JSON object key against a
struct field tag: the match is case-insensitive (`Unmarshal` prefers an
exact match "but also accepting a case-insensitive match"); for the ASCII
keys and tags of this code that is ASCII case-folding, modelled here with
core's ASCII-only `Char.toLower`.  (The exotic non-ASCII equivalences of
`encoding/json`'s internal fold, e.g. the Kelvin sign, are outside this
model.) -/
def foldName (s : String) : String :=
  ⟨s.data.map Char.toLower⟩

/-- Strict lexicographic order on strings by code point, which for UTF-8
encoded strings coincides with Go's byte-wise `<` used when
`json.Marshal` sorts the keys of a map. -/
def charsLt : List Char → List Char → Bool
  | [], [] => false
  | [], _ :: _ => true
  | _ :: _, [] => false
  | a :: as, b :: bs => if a = b then charsLt as bs else decide (a < b)

/-- Models `json.Unmarshal` populating the struct field with tag `tag`
from the marshalled `configMap`: `json.Marshal` emits the map's keys in
sorted (byte) order, `Unmarshal` assigns every object key that matches the
tag case-insensitively, and a later key overwrites an earlier one — so the
field receives the value bound to the greatest matching key, and Go's zero
value `""` when no key matches. -/
def unmarshalField (m : List (String × String)) (tag : String) : String :=
  match m.filter (fun p => foldName p.1 = foldName tag) with
  | [] => ""
  | q :: qs =>
      (qs.foldl (fun best p => if charsLt best.1.data p.1.data then p else best)
        q).2

/-- `ReadExternalRootFSConfigFromENV`, layered variant, after the external
`oci.ReadSpec` has succeeded and produced the environment list
`env = spec.Process.Env`.  The Go code builds `configMap` and sends it
through `json.Marshal`/`json.Unmarshal`; each struct field gets the value
of the greatest map key matching its JSON tag case-insensitively
(`unmarshalField`). -/
def ReadExternalRootFSConfigFromENV (env : List String) : ExternalRootFSConfig where
  Driver := unmarshalField (configMapList env) "EXTERNAL_ROOTFS_DRIVER"
  OverlayLower :=
    unmarshalField (configMapList env) "EXTERNAL_ROOTFS_OVERLAY_LOWER_PATH"
  OverlayUpper :=
    unmarshalField (configMapList env) "EXTERNAL_ROOTFS_OVERLAY_UPPER_PATH"
  Device := unmarshalField (configMapList env) "EXTERNAL_ROOTFS_DEVICE_NAME"
  DeviceFSType :=
    unmarshalField (configMapList env) "EXTERNAL_ROOTFS_DEVICE_FSTYPE"
  DeviceConfig :=
    unmarshalField (configMapList env) "EXTERNAL_ROOTFS_DEVICE_CONFIG"
  DeviceMountOpts :=
    unmarshalField (configMapList env) "EXTERNAL_ROOTFS_DEVICE_MOUNT_OPTS"

/-- `ReadExternalRootFSConfigFromENV`, simpler variant: same scan, struct
has only five tagged fields, so the other keys are dropped by the JSON
round-trip. -/
def ReadExternalRootFSConfigFromENV2 (env : List String) : ExternalRootFSConfig2 where
  Driver := unmarshalField (configMapList env) "EXTERNAL_ROOTFS_DRIVER"
  OverlayLower :=
    unmarshalField (configMapList env) "EXTERNAL_ROOTFS_OVERLAY_LOWER_PATH"
  OverlayUpper :=
    unmarshalField (configMapList env) "EXTERNAL_ROOTFS_OVERLAY_UPPER_PATH"
  Device := unmarshalField (configMapList env) "EXTERNAL_ROOTFS_DEVICE_NAME"
  DeviceFSType :=
    unmarshalField (configMapList env) "EXTERNAL_ROOTFS_DEVICE_FSTYPE"

/-- The seven-field config restricted to the simpler variant's five fields.
-/
def toConfig2 (c : ExternalRootFSConfig) : ExternalRootFSConfig2 where
  Driver := c.Driver
  OverlayLower := c.OverlayLower
  OverlayUpper := c.OverlayUpper
  Device := c.Device
  DeviceFSType := c.DeviceFSType

/-- Body of the option loop in `ParseOverlayOption`: the running
`(upperdir, lowerdir, workdir)` triple updated by one option, with the
source's `upperdir` / `lowerdir` / `workdir` prefix checks in order and
`continue` after the first match. -/
def parseStep (st : String × String × String) (o : String) :
    String × String × String :=
  if hasPfx o "upperdir" then (trimPfx o "upperdir=", st.2.1, st.2.2)
  else if hasPfx o "lowerdir" then (st.1, trimPfx o "lowerdir=", st.2.2)
  else if hasPfx o "workdir" then (st.1, st.2.1, trimPfx o "workdir=")
  else st

/-- `ParseOverlayOption`: folds the loop body over the mount's options
starting from three empty strings. -/
def ParseOverlayOption (m : Mount) : String × String × String :=
  m.options.foldl parseStep ("", "", "")

/-- The overlay-override branch body of `HookMounts` (textually identical
in both variants of the source): parse the single overlay mount, override
lower/upper from the config when non-empty, `MkdirAll` the overridden
upper (failure is fatal), and build the one new overlay mount with
`index=off` appended. -/
def overlayOverride (fs : FS) (lower upper : String) (m : Mount) :
    Except RootFSError (List Mount) :=
  let st := ParseOverlayOption m
  let upperdir := st.1
  let lowdir := if lower ≠ "" then lower else st.2.1
  let workdir := st.2.2
  let resolvedUpper : Except RootFSError String :=
    if upper ≠ "" then
      if fs.mkdirOK upper then .ok upper else .error (.dirCreate upper)
    else .ok upperdir
  match resolvedUpper with
  | .error e => .error e
  | .ok u =>
      .ok [{ type := "overlay", source := "overlay",
             options := ["upperdir=" ++ u, "lowerdir=" ++ lowdir,
                         "workdir=" ++ workdir, "index=off"] }]

/-- `externalDevice` (layered variant): defaults `("xfs", "", ["rw"])`,
then the descriptor file (when `DeviceConfig` is non-empty; its `fsType`
only when non-empty, its `device` unconditionally), then
`DeviceFSType` / `Device` / `DeviceMountOpts` when non-empty; empty final
device is the fatal `missingDevice` error. -/
def externalDevice (fs : FS) (c : ExternalRootFSConfig) :
    Except RootFSError (List Mount) :=
  let base : Except RootFSError (String × String) :=
    if c.DeviceConfig ≠ "" then
      match fs.readExtDevice c.DeviceConfig with
      | .error e => .error e
      | .ok ed =>
          .ok ((if ed.FilesystemType ≠ "" then ed.FilesystemType else "xfs"),
               ed.Device)
    else .ok ("xfs", "")
  match base with
  | .error e => .error e
  | .ok (fsType0, device0) =>
      let fsType := if c.DeviceFSType ≠ "" then c.DeviceFSType else fsType0
      let device := if c.Device ≠ "" then c.Device else device0
      let mountOpt :=
        if c.DeviceMountOpts ≠ "" then splitStr c.DeviceMountOpts ',' else ["rw"]
      if device = "" then .error .missingDevice
      else .ok [{ type := fsType, source := device, options := mountOpt }]

/-- `HookMounts`, layered variant, after config extraction: overlay branch
when the driver is `overlay` and the caller passed exactly one mount of
type `"overlay"`; otherwise the device branch when the driver is `device`;
otherwise pass-through. -/
def HookMounts (fs : FS) (c : ExternalRootFSConfig) (mounts : List Mount) :
    Except RootFSError (List Mount) :=
  match mounts with
  | [m] =>
      if c.Driver = ExternalRootFSDriverOverlay ∧ m.type = "overlay" then
        overlayOverride fs c.OverlayLower c.OverlayUpper m
      else if c.Driver = ExternalRootFSDriverDevice then externalDevice fs c
      else .ok [m]
  | _ =>
      if c.Driver = ExternalRootFSDriverDevice then externalDevice fs c
      else .ok mounts

/-- `HookMounts`, simpler variant, after config extraction: same overlay
branch; the device branch fires only when `Device` is non-empty and builds
the mount directly from `DeviceFSType`/`Device` with options `["rw"]`
(no defaults, no descriptor file); otherwise pass-through. -/
def HookMounts2 (fs : FS) (c : ExternalRootFSConfig2) (mounts : List Mount) :
    Except RootFSError (List Mount) :=
  match mounts with
  | [m] =>
      if c.Driver = ExternalRootFSDriverOverlay ∧ m.type = "overlay" then
        overlayOverride fs c.OverlayLower c.OverlayUpper m
      else if c.Driver = ExternalRootFSDriverDevice ∧ c.Device ≠ "" then
        .ok [{ type := c.DeviceFSType, source := c.Device, options := ["rw"] }]
      else .ok [m]
  | _ =>
      if c.Driver = ExternalRootFSDriverDevice ∧ c.Device ≠ "" then
        .ok [{ type := c.DeviceFSType, source := c.Device, options := ["rw"] }]
      else .ok mounts

/-- The seven JSON tags of the layered config struct: the fixed key→field
table of the extractor. -/
def knownKeys : List String :=
  ["EXTERNAL_ROOTFS_DRIVER", "EXTERNAL_ROOTFS_OVERLAY_LOWER_PATH",
   "EXTERNAL_ROOTFS_OVERLAY_UPPER_PATH", "EXTERNAL_ROOTFS_DEVICE_NAME",
   "EXTERNAL_ROOTFS_DEVICE_FSTYPE", "EXTERNAL_ROOTFS_DEVICE_CONFIG",
   "EXTERNAL_ROOTFS_DEVICE_MOUNT_OPTS"]

/-- What `ParseOverlayOption` yields for one directory prefix `p`: the
last option carrying the bare prefix `p`, with `p ++ "="` trimmed from it
(the option itself when the `=` does not follow); `""` when no option
carries the prefix. -/
def lastDir (p : String) (opts : List String) : String :=
  (((opts.filter (fun o => hasPfx o p)).getLast?).map
    (fun o => trimPfx o (p ++ "="))).getD ""

/-- A single filesystem write request: directory, file name inside it,
content, and permission bits. -/
structure WriteOp where
  dir : String
  file : String
  content : String
  perm : Nat
  deriving DecidableEq, Repr

/-- Models Go `encoding/json` escaping inside a string literal (standard
library, external to the repository): quote and backslash escaped, other
characters kept. -/
def jsonEscapeChar (c : Char) : String :=
  if c = '"' then "\\\"" else if c = '\\' then "\\\\" else String.singleton c

/-- JSON string literal for `s`. -/
def jsonStr (s : String) : String :=
  "\"" ++ String.join (s.data.map jsonEscapeChar) ++ "\""

/-- Models Go `encoding/json` marshalling of one `mount.Mount` (standard
library, external to the repository). -/
def mountJSON (m : Mount) : String :=
  "\x7b\"Type\":" ++ jsonStr m.type ++ ",\"Source\":" ++ jsonStr m.source ++
    ",\"Options\":[" ++ String.intercalate "," (m.options.map jsonStr) ++
    "]\x7d"

/-- Models Go `encoding/json` marshalling of `[]mount.Mount`. -/
def marshalMounts (ms : List Mount) : String :=
  "[" ++ String.intercalate "," (ms.map mountJSON) ++ "]"

/-- `WriteMounts`: nothing when the list is empty, otherwise the single
write of the JSON serialization to `mounts.json` under `path` with
permissions `0600` (`os.WriteFile`, which truncates an existing file).
The returned list is the sequence of filesystem writes requested; the Go
error return is `nil` in the empty case and otherwise only reports failure
of this one external write. -/
def WriteMounts (path : String) (mounts : List Mount) : List WriteOp :=
  if mounts = [] then []
  else [{ dir := path, file := "mounts.json",
          content := marshalMounts mounts, perm := 0o600 }]

/-- Fixture: filesystem on which every descriptor read fails and every
`MkdirAll` succeeds. -/
def fsNone : FS :=
  { readExtDevice := fun p => .error (.deviceConfigRead p)
    mkdirOK := fun _ => true }

/-- Fixture: filesystem whose descriptor file at `/etc/dc` holds
device `/dev/a` with empty `fs_type`, and on which `MkdirAll` succeeds. -/
def fsDevA : FS :=
  { readExtDevice := fun p =>
      if p = "/etc/dc" then .ok { Device := "/dev/a", FilesystemType := "" }
      else .error (.deviceConfigRead p)
    mkdirOK := fun _ => true }

/-! ## Helper lemmas -/

theorem isPfxOf_app (p r : List Char) : isPfxOf p (p ++ r) = true := by
  induction p with
  | nil => rfl
  | cons a as ih => simp [isPfxOf, ih]

theorem hasPfx_app (p s : String) : hasPfx (p ++ s) p = true := by
  simp [hasPfx, String.data_append, isPfxOf_app]

theorem trimPfx_app (p s : String) : trimPfx (p ++ s) p = s := by
  simp only [trimPfx, String.data_append, isPfxOf_app, if_true]
  rw [List.drop_left]

theorem isPfxOf_head {a : Char} {as l : List Char}
    (h : isPfxOf (a :: as) l = true) : ∃ tl, l = a :: tl := by
  cases l with
  | nil => simp [isPfxOf] at h
  | cons b bs =>
    simp [isPfxOf] at h
    exact ⟨bs, by rw [h.1]⟩

theorem hasPfx_clash (o p q : String) (c d : Char) (cs ds : List Char)
    (hp : p.data = c :: cs) (hq : q.data = d :: ds) (hne : d ≠ c)
    (h : hasPfx o p = true) : hasPfx o q = false := by
  unfold hasPfx at h ⊢
  rw [hp] at h
  obtain ⟨tl, hl⟩ := isPfxOf_head h
  rw [hq, hl]
  simp [isPfxOf, hne]

theorem splitChar_ne_nil (c : Char) (l : List Char) : splitChar c l ≠ [] := by
  induction l with
  | nil => simp [splitChar]
  | cons x xs ih =>
    simp only [splitChar]
    cases hs : splitChar c xs with
    | nil => simp
    | cons h t => by_cases hx : x = c <;> simp [hx]

theorem splitChar_not_mem (c : Char) (l : List Char) (h : c ∉ l) :
    splitChar c l = [l] := by
  induction l with
  | nil => rfl
  | cons x xs ih =>
    have hx : ¬c = x := fun he => h (by simp [he])
    have hxs : c ∉ xs := fun he => h (List.mem_cons_of_mem _ he)
    rw [splitChar, ih hxs]
    simp [Ne.symm hx]

theorem splitChar_app (c : Char) (l₁ l₂ : List Char) (h : c ∉ l₁) :
    splitChar c (l₁ ++ c :: l₂) = l₁ :: splitChar c l₂ := by
  induction l₁ with
  | nil =>
    simp only [List.nil_append, splitChar]
    cases hs : splitChar c l₂ with
    | nil => exact absurd hs (splitChar_ne_nil c l₂)
    | cons hh tt => simp
  | cons x xs ih =>
    have hx : ¬c = x := fun he => h (by simp [he])
    have hxs : c ∉ xs := fun he => h (List.mem_cons_of_mem _ he)
    rw [List.cons_append, splitChar, ih hxs]
    simp [Ne.symm hx]

theorem envKV_two (k v rest : List Char) (hk : '=' ∉ k) (hv : '=' ∉ v) :
    envKV ⟨k ++ '=' :: (v ++ '=' :: rest)⟩ = some (⟨k⟩, ⟨v⟩) := by
  unfold envKV
  rw [show (String.mk (k ++ '=' :: (v ++ '=' :: rest))).data
        = k ++ '=' :: (v ++ '=' :: rest) from rfl]
  rw [splitChar_app _ _ _ hk, splitChar_app _ _ _ hv]

theorem envKV_none (e : String) (h : '=' ∉ e.data) : envKV e = none := by
  unfold envKV
  rw [splitChar_not_mem _ _ h]

theorem foldl_if_eq_filter (p : String → Bool) (g : String → String)
    (l : List String) (acc : String) :
    l.foldl (fun a o => if p o then g o else a) acc
      = (l.filter p).foldl (fun _ o => g o) acc := by
  induction l generalizing acc with
  | nil => rfl
  | cons o t ih =>
    by_cases h : p o = true
    · simp [List.filter_cons, h, ih]
    · simp [List.filter_cons, h, ih]

theorem foldl_const_getLast (g : String → String) (l : List String)
    (acc : String) :
    l.foldl (fun _ o => g o) acc = ((l.getLast?).map g).getD acc := by
  induction l generalizing acc with
  | nil => rfl
  | cons o t ih =>
    cases t with
    | nil => simp
    | cons x xs =>
      rw [List.foldl_cons, ih, List.getLast?_cons_cons]
      have hs : ((x :: xs).getLast?).isSome = true :=
        List.getLast?_isSome.mpr (by simp)
      obtain ⟨y, hy⟩ := Option.isSome_iff_exists.mp hs
      rw [hy]
      simp

theorem hasPfx_up_not_low (o : String) (h : hasPfx o "upperdir" = true) :
    hasPfx o "lowerdir" = false :=
  hasPfx_clash o "upperdir" "lowerdir" 'u' 'l' "pperdir".data "owerdir".data
    (by decide) (by decide) (by decide) h

theorem hasPfx_up_not_work (o : String) (h : hasPfx o "upperdir" = true) :
    hasPfx o "workdir" = false :=
  hasPfx_clash o "upperdir" "workdir" 'u' 'w' "pperdir".data "orkdir".data
    (by decide) (by decide) (by decide) h

theorem hasPfx_low_not_up (o : String) (h : hasPfx o "lowerdir" = true) :
    hasPfx o "upperdir" = false :=
  hasPfx_clash o "lowerdir" "upperdir" 'l' 'u' "owerdir".data "pperdir".data
    (by decide) (by decide) (by decide) h

theorem hasPfx_low_not_work (o : String) (h : hasPfx o "lowerdir" = true) :
    hasPfx o "workdir" = false :=
  hasPfx_clash o "lowerdir" "workdir" 'l' 'w' "owerdir".data "orkdir".data
    (by decide) (by decide) (by decide) h

theorem hasPfx_work_not_up (o : String) (h : hasPfx o "workdir" = true) :
    hasPfx o "upperdir" = false :=
  hasPfx_clash o "workdir" "upperdir" 'w' 'u' "orkdir".data "pperdir".data
    (by decide) (by decide) (by decide) h

theorem hasPfx_work_not_low (o : String) (h : hasPfx o "workdir" = true) :
    hasPfx o "lowerdir" = false :=
  hasPfx_clash o "workdir" "lowerdir" 'w' 'l' "orkdir".data "owerdir".data
    (by decide) (by decide) (by decide) h

theorem parse_foldl (opts : List String) (a b c : String) :
    opts.foldl parseStep (a, b, c) =
      (opts.foldl
        (fun x o => if hasPfx o "upperdir" then trimPfx o "upperdir=" else x) a,
       opts.foldl
        (fun x o => if hasPfx o "upperdir" then x
          else if hasPfx o "lowerdir" then trimPfx o "lowerdir=" else x) b,
       opts.foldl
        (fun x o => if hasPfx o "upperdir" then x
          else if hasPfx o "lowerdir" then x
          else if hasPfx o "workdir" then trimPfx o "workdir=" else x) c) := by
  induction opts generalizing a b c with
  | nil => rfl
  | cons o t ih =>
    simp only [List.foldl_cons]
    rw [show parseStep (a, b, c) o =
        ((if hasPfx o "upperdir" then trimPfx o "upperdir=" else a),
         (if hasPfx o "upperdir" then b
          else if hasPfx o "lowerdir" then trimPfx o "lowerdir=" else b),
         (if hasPfx o "upperdir" then c
          else if hasPfx o "lowerdir" then c
          else if hasPfx o "workdir" then trimPfx o "workdir=" else c))
      from by
        unfold parseStep
        by_cases h1 : hasPfx o "upperdir" = true <;>
          by_cases h2 : hasPfx o "lowerdir" = true <;>
            by_cases h3 : hasPfx o "workdir" = true <;>
              simp [h1, h2, h3]]
    exact ih _ _ _

theorem ParseOverlayOption_eq_lastDir (t s : String) (opts : List String) :
    ParseOverlayOption ⟨t, s, opts⟩
      = (lastDir "upperdir" opts, lastDir "lowerdir" opts,
         lastDir "workdir" opts) := by
  have hlow : opts.foldl
      (fun x o => if hasPfx o "upperdir" then x
        else if hasPfx o "lowerdir" then trimPfx o "lowerdir=" else x) ""
      = opts.foldl
        (fun x o => if hasPfx o "lowerdir" then trimPfx o "lowerdir=" else x)
        "" := by
    apply List.foldl_ext
    intro x o _
    by_cases h1 : hasPfx o "upperdir" = true
    · rw [if_pos h1, if_neg (by simp [hasPfx_up_not_low o h1])]
    · rw [if_neg h1]
  have hwork : opts.foldl
      (fun x o => if hasPfx o "upperdir" then x
        else if hasPfx o "lowerdir" then x
        else if hasPfx o "workdir" then trimPfx o "workdir=" else x) ""
      = opts.foldl
        (fun x o => if hasPfx o "workdir" then trimPfx o "workdir=" else x)
        "" := by
    apply List.foldl_ext
    intro x o _
    by_cases h1 : hasPfx o "upperdir" = true
    · rw [if_pos h1, if_neg (by simp [hasPfx_up_not_work o h1])]
    · by_cases h2 : hasPfx o "lowerdir" = true
      · rw [if_neg h1, if_pos h2, if_neg (by simp [hasPfx_low_not_work o h2])]
      · rw [if_neg h1, if_neg h2]
  show opts.foldl parseStep ("", "", "") = _
  rw [parse_foldl, hlow, hwork]
  rw [foldl_if_eq_filter, foldl_if_eq_filter, foldl_if_eq_filter]
  rw [foldl_const_getLast, foldl_const_getLast, foldl_const_getLast]
  unfold lastDir
  rw [show ("upperdir" : String) ++ "=" = "upperdir=" from rfl,
      show ("lowerdir" : String) ++ "=" = "lowerdir=" from rfl,
      show ("workdir" : String) ++ "=" = "workdir=" from rfl]

theorem configMapGet_filter (env : List String) (key : String) :
    configMapGet env key
      = configMapGet (env.filter (fun e => hasPfx e ExternalRootFSPfx)) key := by
  unfold configMapGet
  generalize ("" : String) = acc
  induction env generalizing acc with
  | nil => rfl
  | cons e t ih =>
    by_cases h : hasPfx e ExternalRootFSPfx = true
    · simp only [List.filter_cons, h, if_true, List.foldl_cons]
      exact ih _
    · have hstep : cmStep key acc e = acc := by
        unfold cmStep
        rw [if_neg h]
      simp only [List.filter_cons, h, if_false, List.foldl_cons, hstep]
      exact ih _

theorem configMapGet_congr (env₁ env₂ : List String)
    (h : env₁.filter (fun e => hasPfx e ExternalRootFSPfx)
        = env₂.filter (fun e => hasPfx e ExternalRootFSPfx)) :
    ∀ key, configMapGet env₁ key = configMapGet env₂ key := by
  intro key
  rw [configMapGet_filter env₁, h, ← configMapGet_filter env₂]

theorem configMapGet_append_other (env : List String) (e : String)
    (key : String)
    (hne : match envKV e with
      | some kv => kv.1 ≠ key
      | none => True) :
    configMapGet (env ++ [e]) key = configMapGet env key := by
  unfold configMapGet
  rw [List.foldl_append]
  show cmStep key (env.foldl (cmStep key) "") e = _
  unfold cmStep
  by_cases h : hasPfx e ExternalRootFSPfx = true
  · rw [if_pos h]
    cases hkv : envKV e with
    | none => rfl
    | some kv =>
      rw [hkv] at hne
      cases kv with
      | mk k v => simp [hne]
  · rw [if_neg h]

theorem hasPfx_updirEq (X : String) :
    hasPfx ("upperdir=" ++ X) "upperdir" = true := by
  unfold hasPfx
  rw [String.data_append,
      show ("upperdir=" : String).data = "upperdir".data ++ ['='] from rfl,
      List.append_assoc]
  exact isPfxOf_app _ _

/-! ## Claim theorems -/

/-- C7: for an overlay option list whose sole `upperdir`-, `lowerdir`- and
`workdir`-prefixed options are `upperdir=U`, `lowerdir=L`, `workdir=W`, in
any order and interleaved with arbitrary unrelated options,
`ParseOverlayOption` returns exactly `(U, L, W)`; when one of the three is
missing (here `workdir`), the corresponding component is the empty string;
a later occurrence of the same prefix overwrites an earlier one
(last-wins); the function is total by construction (it is a Lean function
on any option list). -/
theorem c7_parse_overlay_options (t s : String) (opts opts2 : List String)
    (U L W U2 L2 X : String)
    (hU : opts.filter (fun o => hasPfx o "upperdir") = ["upperdir=" ++ U])
    (hL : opts.filter (fun o => hasPfx o "lowerdir") = ["lowerdir=" ++ L])
    (hW : opts.filter (fun o => hasPfx o "workdir") = ["workdir=" ++ W])
    (hU2 : opts2.filter (fun o => hasPfx o "upperdir") = ["upperdir=" ++ U2])
    (hL2 : opts2.filter (fun o => hasPfx o "lowerdir") = ["lowerdir=" ++ L2])
    (hW2 : opts2.filter (fun o => hasPfx o "workdir") = []) :
    ParseOverlayOption ⟨t, s, opts⟩ = (U, L, W)
    ∧ ParseOverlayOption ⟨t, s, opts2⟩ = (U2, L2, "")
    ∧ ParseOverlayOption ⟨t, s, opts ++ ["upperdir=" ++ X]⟩ = (X, L, W) := by
  have hXup := hasPfx_updirEq X
  have hXlow := hasPfx_up_not_low _ hXup
  have hXwork := hasPfx_up_not_work _ hXup
  refine ⟨?_, ?_, ?_⟩
  · rw [ParseOverlayOption_eq_lastDir]
    unfold lastDir
    rw [hU, hL, hW,
        show ("upperdir" : String) ++ "=" = "upperdir=" from rfl,
        show ("lowerdir" : String) ++ "=" = "lowerdir=" from rfl,
        show ("workdir" : String) ++ "=" = "workdir=" from rfl]
    simp only [List.getLast?_singleton, Option.map_some', Option.getD_some]
    rw [trimPfx_app, trimPfx_app, trimPfx_app]
  · rw [ParseOverlayOption_eq_lastDir]
    unfold lastDir
    rw [hU2, hL2, hW2,
        show ("upperdir" : String) ++ "=" = "upperdir=" from rfl,
        show ("lowerdir" : String) ++ "=" = "lowerdir=" from rfl]
    simp only [List.getLast?_singleton, Option.map_some', Option.getD_some]
    rw [trimPfx_app, trimPfx_app]
    rfl
  · rw [ParseOverlayOption_eq_lastDir]
    unfold lastDir
    rw [List.filter_append, List.filter_append, List.filter_append,
        hU, hL, hW,
        show ("upperdir" : String) ++ "=" = "upperdir=" from rfl,
        show ("lowerdir" : String) ++ "=" = "lowerdir=" from rfl,
        show ("workdir" : String) ++ "=" = "workdir=" from rfl]
    simp [hXup, hXlow, hXwork, trimPfx_app]

theorem c7_witness :
    ParseOverlayOption ⟨"overlay", "overlay",
        ["foo", "lowerdir=/b", "upperdir=/a", "bar", "workdir=/c"]⟩
      = ("/a", "/b", "/c")
    ∧ ParseOverlayOption ⟨"overlay", "overlay",
        ["upperdir=/a", "lowerdir=/b"]⟩ = ("/a", "/b", "")
    ∧ ParseOverlayOption ⟨"overlay", "overlay",
        ["foo", "lowerdir=/b", "upperdir=/a", "bar", "workdir=/c"]
          ++ ["upperdir=" ++ "/z"]⟩ = ("/z", "/b", "/c") :=
  c7_parse_overlay_options "overlay" "overlay"
    ["foo", "lowerdir=/b", "upperdir=/a", "bar", "workdir=/c"]
    ["upperdir=/a", "lowerdir=/b"] "/a" "/b" "/c" "/a" "/b" "/z"
    (by decide) (by decide) (by decide) (by decide) (by decide) (by decide)

/-- C10: `ParseOverlayOption` matches options by the bare prefixes
`upperdir`/`lowerdir`/`workdir` without requiring a following `=`; an
option that starts with the bare prefix but not with `prefix=` is consumed
by that case, and the entire untrimmed option string becomes the returned
value (no substring after an `=` is extracted). -/
theorem c10_bare_pfx_consumption (t s o₁ o₂ o₃ : String)
    (h1 : hasPfx o₁ "upperdir" = true) (h1n : hasPfx o₁ "upperdir=" = false)
    (h2 : hasPfx o₂ "lowerdir" = true) (h2n : hasPfx o₂ "lowerdir=" = false)
    (h3 : hasPfx o₃ "workdir" = true) (h3n : hasPfx o₃ "workdir=" = false) :
    ParseOverlayOption ⟨t, s, [o₁]⟩ = (o₁, "", "")
    ∧ ParseOverlayOption ⟨t, s, [o₂]⟩ = ("", o₂, "")
    ∧ ParseOverlayOption ⟨t, s, [o₃]⟩ = ("", "", o₃) := by
  have t1 : trimPfx o₁ "upperdir=" = o₁ := by
    unfold trimPfx
    rw [if_neg (by simpa [hasPfx] using h1n)]
  have t2 : trimPfx o₂ "lowerdir=" = o₂ := by
    unfold trimPfx
    rw [if_neg (by simpa [hasPfx] using h2n)]
  have t3 : trimPfx o₃ "workdir=" = o₃ := by
    unfold trimPfx
    rw [if_neg (by simpa [hasPfx] using h3n)]
  refine ⟨?_, ?_, ?_⟩
  · show parseStep ("", "", "") o₁ = (o₁, "", "")
    unfold parseStep
    rw [if_pos h1, t1]
  · show parseStep ("", "", "") o₂ = ("", o₂, "")
    unfold parseStep
    rw [if_neg (by simp [hasPfx_low_not_up o₂ h2]), if_pos h2, t2]
  · show parseStep ("", "", "") o₃ = ("", "", o₃)
    unfold parseStep
    rw [if_neg (by simp [hasPfx_work_not_up o₃ h3]),
        if_neg (by simp [hasPfx_work_not_low o₃ h3]), if_pos h3, t3]

theorem c10_witness :
    ParseOverlayOption ⟨"overlay", "overlay", ["upperdir2=/x"]⟩
      = ("upperdir2=/x", "", "")
    ∧ ParseOverlayOption ⟨"overlay", "overlay", ["lowerdir2=/y"]⟩
      = ("", "lowerdir2=/y", "")
    ∧ ParseOverlayOption ⟨"overlay", "overlay", ["workdir2=/z"]⟩
      = ("", "", "workdir2=/z") :=
  c10_bare_pfx_consumption "overlay" "overlay"
    "upperdir2=/x" "lowerdir2=/y" "workdir2=/z"
    (by decide) (by decide) (by decide) (by decide) (by decide) (by decide)

/-- C6 counterexample: the claim says a kept entry is split on the first
`=` with the value being the entire remainder, so `KEY=a=b` would store
`a=b`; the code splits on every `=` and stores segment `t[1]`, so the
entry `EXTERNAL_ROOTFS_DEVICE_NAME=a=b` yields `"a"`, not `"a=b"`. -/
theorem c6_counterexample :
    (ReadExternalRootFSConfigFromENV
        ["EXTERNAL_ROOTFS_DEVICE_NAME=a=b"]).Device = "a"
    ∧ ("a" : String) ≠ "a=b" :=
  ⟨by decide, by decide⟩

/-- C6 amended: each kept entry is split on every `=`, and the stored
value is the segment between the first and the second `=` (for a
two-segment entry, everything after the only `=`); entries containing no
`=` are discarded silently rather than causing an error. -/
theorem c6_amended_env_split (k v rest : List Char) (e' key : String)
    (hk : '=' ∉ k) (hv : '=' ∉ v)
    (hpfx : hasPfx ⟨k ++ '=' :: (v ++ '=' :: rest)⟩ ExternalRootFSPfx = true)
    (hne : '=' ∉ e'.data) :
    configMapGet [⟨k ++ '=' :: (v ++ '=' :: rest)⟩] ⟨k⟩ = ⟨v⟩
    ∧ configMapGet [e'] key = "" := by
  constructor
  · show cmStep ⟨k⟩ "" ⟨k ++ '=' :: (v ++ '=' :: rest)⟩ = ⟨v⟩
    unfold cmStep
    rw [if_pos hpfx, envKV_two k v rest hk hv]
    simp
  · show cmStep key "" e' = ""
    unfold cmStep
    rw [envKV_none e' hne]
    by_cases h : hasPfx e' ExternalRootFSPfx = true
    · rw [if_pos h]
    · rw [if_neg h]

theorem c6_witness :
    configMapGet
        [⟨"EXTERNAL_ROOTFS_DEVICE_NAME".data
            ++ '=' :: ("a".data ++ '=' :: "b".data)⟩]
        ⟨"EXTERNAL_ROOTFS_DEVICE_NAME".data⟩ = ⟨"a".data⟩
    ∧ configMapGet ["EXTERNAL_ROOTFS_NOEQ"] "EXTERNAL_ROOTFS_DRIVER" = "" :=
  c6_amended_env_split "EXTERNAL_ROOTFS_DEVICE_NAME".data "a".data "b".data
    "EXTERNAL_ROOTFS_NOEQ" "EXTERNAL_ROOTFS_DRIVER"
    (by decide) (by decide) (by decide) (by decide)

theorem configMapList_filter (env : List String) :
    configMapList env
      = configMapList (env.filter (fun e => hasPfx e ExternalRootFSPfx)) := by
  unfold configMapList
  generalize ([] : List (String × String)) = m
  induction env generalizing m with
  | nil => rfl
  | cons e t ih =>
    by_cases h : hasPfx e ExternalRootFSPfx = true
    · simp only [List.filter_cons, h, if_true, List.foldl_cons]
      exact ih _
    · have hstep : cmlStep m e = m := by
        unfold cmlStep
        rw [if_neg h]
      simp only [List.filter_cons, h, if_false, List.foldl_cons, hstep]
      exact ih _

theorem filter_mapUpsert_nomatch (m : List (String × String))
    (k v tag : String) (h : foldName k ≠ foldName tag) :
    (mapUpsert m k v).filter (fun p => foldName p.1 = foldName tag)
      = m.filter (fun p => foldName p.1 = foldName tag) := by
  have hmap : (m.map (fun p => if p.1 = k then (k, v) else p)).filter
      (fun p => foldName p.1 = foldName tag)
      = m.filter (fun p => foldName p.1 = foldName tag) := by
    induction m with
    | nil => rfl
    | cons p t ih =>
      by_cases hp : p.1 = k
      · simp [List.filter_cons, hp, h, ih]
      · simp [List.filter_cons, hp, ih]
  unfold mapUpsert
  by_cases ha : m.any (fun p => p.1 = k) = true
  · rw [if_pos ha]
    exact hmap
  · rw [if_neg ha, List.filter_append,
       show [(k, v)].filter (fun p => foldName p.1 = foldName tag) = []
         from by simp [h],
       List.append_nil]

theorem unmarshalField_upsert_nomatch (m : List (String × String))
    (k v tag : String) (h : foldName k ≠ foldName tag) :
    unmarshalField (mapUpsert m k v) tag = unmarshalField m tag := by
  unfold unmarshalField
  rw [filter_mapUpsert_nomatch m k v tag h]

/-- C8 counterexample: the claim says prefixed keys outside the fixed
key→field table are ignored, but `json.Unmarshal` matches tags
case-insensitively, so the entry `EXTERNAL_ROOTFS_Driver=device` — whose
key is not in the table — sets the `Driver` field. -/
theorem c8_counterexample :
    ("EXTERNAL_ROOTFS_Driver" : String) ∉ knownKeys
    ∧ (ReadExternalRootFSConfigFromENV
        ["EXTERNAL_ROOTFS_Driver=device"]).Driver = "device"
    ∧ ReadExternalRootFSConfigFromENV ["EXTERNAL_ROOTFS_Driver=device"]
        ≠ ReadExternalRootFSConfigFromENV [] :=
  ⟨by decide, by decide, by decide⟩

/-- C8 amended: prefix isolation — two environment lists whose
subsequences of reserved-prefix entries coincide produce the same
configuration record (non-prefixed entries have no effect whatsoever);
and a prefixed entry whose key matches none of the seven table keys even
case-insensitively (`json.Unmarshal` matches tags up to case) leaves the
record unchanged, with no error. -/
theorem c8_prefix_isolation (env₁ env₂ : List String) (e : String)
    (hfilter : env₁.filter (fun x => hasPfx x ExternalRootFSPfx)
        = env₂.filter (fun x => hasPfx x ExternalRootFSPfx))
    (hunk : ∀ kv, envKV e = some kv →
      ∀ t, t ∈ knownKeys → foldName kv.1 ≠ foldName t) :
    ReadExternalRootFSConfigFromENV env₁ = ReadExternalRootFSConfigFromENV env₂
    ∧ ReadExternalRootFSConfigFromENV (env₁ ++ [e])
        = ReadExternalRootFSConfigFromENV env₁ := by
  have hmapeq : configMapList env₁ = configMapList env₂ := by
    rw [configMapList_filter env₁, hfilter, ← configMapList_filter env₂]
  have hstep : configMapList (env₁ ++ [e])
      = cmlStep (configMapList env₁) e := by
    unfold configMapList
    rw [List.foldl_append]
    rfl
  constructor
  · simp only [ReadExternalRootFSConfigFromENV]
    rw [hmapeq]
  · by_cases hpfx : hasPfx e ExternalRootFSPfx = true
    · cases hkv : envKV e with
      | none =>
        have hskip : cmlStep (configMapList env₁) e = configMapList env₁ := by
          unfold cmlStep
          rw [if_pos hpfx, hkv]
        simp only [ReadExternalRootFSConfigFromENV]
        rw [hstep, hskip]
      | some kv =>
        obtain ⟨k, v⟩ := kv
        have hcml : cmlStep (configMapList env₁) e
            = mapUpsert (configMapList env₁) k v := by
          unfold cmlStep
          rw [if_pos hpfx, hkv]
        have r1 := unmarshalField_upsert_nomatch (configMapList env₁) k v
          "EXTERNAL_ROOTFS_DRIVER" (hunk (k, v) hkv _ (by decide))
        have r2 := unmarshalField_upsert_nomatch (configMapList env₁) k v
          "EXTERNAL_ROOTFS_OVERLAY_LOWER_PATH" (hunk (k, v) hkv _ (by decide))
        have r3 := unmarshalField_upsert_nomatch (configMapList env₁) k v
          "EXTERNAL_ROOTFS_OVERLAY_UPPER_PATH" (hunk (k, v) hkv _ (by decide))
        have r4 := unmarshalField_upsert_nomatch (configMapList env₁) k v
          "EXTERNAL_ROOTFS_DEVICE_NAME" (hunk (k, v) hkv _ (by decide))
        have r5 := unmarshalField_upsert_nomatch (configMapList env₁) k v
          "EXTERNAL_ROOTFS_DEVICE_FSTYPE" (hunk (k, v) hkv _ (by decide))
        have r6 := unmarshalField_upsert_nomatch (configMapList env₁) k v
          "EXTERNAL_ROOTFS_DEVICE_CONFIG" (hunk (k, v) hkv _ (by decide))
        have r7 := unmarshalField_upsert_nomatch (configMapList env₁) k v
          "EXTERNAL_ROOTFS_DEVICE_MOUNT_OPTS" (hunk (k, v) hkv _ (by decide))
        simp only [ReadExternalRootFSConfigFromENV]
        rw [hstep, hcml, r1, r2, r3, r4, r5, r6, r7]
    · have hskip : cmlStep (configMapList env₁) e = configMapList env₁ := by
        unfold cmlStep
        rw [if_neg hpfx]
      simp only [ReadExternalRootFSConfigFromENV]
      rw [hstep, hskip]

theorem c8_witness :
    ReadExternalRootFSConfigFromENV ["FOO=1", "EXTERNAL_ROOTFS_DRIVER=overlay"]
      = ReadExternalRootFSConfigFromENV
          ["EXTERNAL_ROOTFS_DRIVER=overlay", "BAR=2"]
    ∧ ReadExternalRootFSConfigFromENV
          (["FOO=1", "EXTERNAL_ROOTFS_DRIVER=overlay"]
            ++ ["EXTERNAL_ROOTFS_BOGUS=1"])
        = ReadExternalRootFSConfigFromENV
            ["FOO=1", "EXTERNAL_ROOTFS_DRIVER=overlay"] :=
  c8_prefix_isolation ["FOO=1", "EXTERNAL_ROOTFS_DRIVER=overlay"]
    ["EXTERNAL_ROOTFS_DRIVER=overlay", "BAR=2"] "EXTERNAL_ROOTFS_BOGUS=1"
    (by decide)
    (by
      intro kv h
      rw [show envKV "EXTERNAL_ROOTFS_BOGUS=1"
            = some ("EXTERNAL_ROOTFS_BOGUS", "1") from rfl] at h
      cases h
      decide)

/-- C1: device layering order — defaults `("xfs", "", ["rw"])`; the
descriptor file's fsType overrides the default only if non-empty while its
device value overrides the device unconditionally; then `cfg.DeviceFSType`
overrides fstype if non-empty; then `cfg.Device` overrides device if
non-empty; then `cfg.DeviceMountOpts`, split on `','`, replaces `["rw"]`
entirely if non-empty. -/
theorem c1_device_layering (fs : FS) (c : ExternalRootFSConfig)
    (ed : ExtDevice)
    (hdc : c.DeviceConfig ≠ "")
    (hread : fs.readExtDevice c.DeviceConfig = .ok ed)
    (hdev : (if c.Device ≠ "" then c.Device else ed.Device) ≠ "") :
    externalDevice fs c = .ok [{
      type := if c.DeviceFSType ≠ "" then c.DeviceFSType
        else if ed.FilesystemType ≠ "" then ed.FilesystemType else "xfs"
      source := if c.Device ≠ "" then c.Device else ed.Device
      options := if c.DeviceMountOpts ≠ "" then splitStr c.DeviceMountOpts ','
        else ["rw"] }] := by
  unfold externalDevice
  rw [if_pos hdc, hread]
  simp only [if_neg hdev]

theorem c1_witness :
    externalDevice fsDevA ⟨"device", "", "", "", "ext4", "/etc/dc", ""⟩
      = .ok [{ type := "ext4", source := "/dev/a", options := ["rw"] }] :=
  c1_device_layering fsDevA ⟨"device", "", "", "", "ext4", "/etc/dc", ""⟩
    ⟨"/dev/a", ""⟩ (by decide) rfl (by decide)

/-- C2: when the driver is `device` and, after all layering (inline
`Device`, and the descriptor file when `DeviceConfig` is set), the
resolved device string is still empty, resolution fails with the
missing-device error and no mount list is returned. -/
theorem c2_missing_device (fs : FS) (c : ExternalRootFSConfig)
    (mounts : List Mount) (ed : ExtDevice)
    (hdrv : c.Driver = ExternalRootFSDriverDevice)
    (hdev : c.Device = "")
    (hsrc : c.DeviceConfig = ""
      ∨ (fs.readExtDevice c.DeviceConfig = .ok ed ∧ ed.Device = "")) :
    HookMounts fs c mounts = .error RootFSError.missingDevice := by
  have hext : externalDevice fs c = .error RootFSError.missingDevice := by
    unfold externalDevice
    by_cases hdc : c.DeviceConfig = ""
    · simp [hdc, hdev]
    · rcases hsrc with h | ⟨hread, hed⟩
      · exact absurd h hdc
      · simp [hdc, hread, hed, hdev]
  have hnotov : ¬(c.Driver = ExternalRootFSDriverOverlay) := by
    rw [hdrv]
    decide
  cases mounts with
  | nil =>
    show (if c.Driver = ExternalRootFSDriverDevice then externalDevice fs c
      else .ok []) = _
    rw [if_pos hdrv, hext]
  | cons m rest =>
    cases rest with
    | nil =>
      show (if c.Driver = ExternalRootFSDriverOverlay ∧ m.type = "overlay"
          then overlayOverride fs c.OverlayLower c.OverlayUpper m
          else if c.Driver = ExternalRootFSDriverDevice
          then externalDevice fs c
          else .ok [m]) = _
      rw [if_neg (fun hcon => hnotov hcon.1), if_pos hdrv, hext]
    | cons m2 rest2 =>
      show (if c.Driver = ExternalRootFSDriverDevice then externalDevice fs c
        else .ok (m :: m2 :: rest2)) = _
      rw [if_pos hdrv, hext]

theorem c2_witness :
    HookMounts fsNone
        (ReadExternalRootFSConfigFromENV ["EXTERNAL_ROOTFS_DRIVER=device"]) []
      = .error RootFSError.missingDevice :=
  c2_missing_device fsNone
    (ReadExternalRootFSConfigFromENV ["EXTERNAL_ROOTFS_DRIVER=device"]) []
    ⟨"", ""⟩ (by decide) (by decide) (.inl (by decide))

/-- C3: in the overlay-override branch the result is exactly one mount of
type `"overlay"`, source literal `"overlay"`, and options exactly
`[upperdir=<upper>, lowerdir=<lower>, workdir=<work>, index=off]` in that
order, where upper/lower default to the parsed values of the original
mount and are replaced by `OverlayUpper`/`OverlayLower` when non-empty,
work is carried through unchanged, and `index=off` is always appended
(assuming the `MkdirAll` of an overridden upper succeeds). -/
theorem c3_overlay_override (fs : FS) (c : ExternalRootFSConfig) (m : Mount)
    (hdrv : c.Driver = ExternalRootFSDriverOverlay) (hty : m.type = "overlay")
    (hmk : c.OverlayUpper ≠ "" → fs.mkdirOK c.OverlayUpper = true) :
    HookMounts fs c [m] = .ok [{
      type := "overlay", source := "overlay",
      options :=
        ["upperdir=" ++ (if c.OverlayUpper ≠ "" then c.OverlayUpper
            else (ParseOverlayOption m).1),
         "lowerdir=" ++ (if c.OverlayLower ≠ "" then c.OverlayLower
            else (ParseOverlayOption m).2.1),
         "workdir=" ++ (ParseOverlayOption m).2.2,
         "index=off"] }] := by
  show (if c.Driver = ExternalRootFSDriverOverlay ∧ m.type = "overlay"
      then overlayOverride fs c.OverlayLower c.OverlayUpper m
      else if c.Driver = ExternalRootFSDriverDevice
      then externalDevice fs c
      else .ok [m]) = _
  rw [if_pos ⟨hdrv, hty⟩]
  unfold overlayOverride
  by_cases hup : c.OverlayUpper ≠ ""
  · simp only [if_pos hup, if_pos (hmk hup)]
  · simp only [if_neg hup]

theorem c3_witness :
    HookMounts fsNone ⟨"overlay", "", "/x", "", "", "", ""⟩
        [⟨"overlay", "o", ["upperdir=/a", "lowerdir=/b", "workdir=/c"]⟩]
      = .ok [⟨"overlay", "overlay",
          ["upperdir=/x", "lowerdir=/b", "workdir=/c", "index=off"]⟩] :=
  c3_overlay_override fsNone ⟨"overlay", "", "/x", "", "", "", ""⟩
    ⟨"overlay", "o", ["upperdir=/a", "lowerdir=/b", "workdir=/c"]⟩
    rfl rfl (fun _ => rfl)

/-- C4: when neither the overlay branch applies (driver `overlay` with
exactly one mount of type `"overlay"`) nor the device branch (driver
`device`), `HookMounts` returns the caller's original mount list unchanged
with no error — in particular for driver `overlay` with a two-entry mount
list. -/
theorem c4_branch_passthrough (fs : FS) (c : ExternalRootFSConfig)
    (mounts : List Mount)
    (hdev : c.Driver ≠ ExternalRootFSDriverDevice)
    (hov : ¬(c.Driver = ExternalRootFSDriverOverlay
      ∧ ∃ m, mounts = [m] ∧ m.type = "overlay")) :
    HookMounts fs c mounts = .ok mounts := by
  cases mounts with
  | nil =>
    show (if c.Driver = ExternalRootFSDriverDevice then externalDevice fs c
      else .ok []) = _
    rw [if_neg hdev]
  | cons m rest =>
    cases rest with
    | nil =>
      show (if c.Driver = ExternalRootFSDriverOverlay ∧ m.type = "overlay"
          then overlayOverride fs c.OverlayLower c.OverlayUpper m
          else if c.Driver = ExternalRootFSDriverDevice
          then externalDevice fs c
          else .ok [m]) = _
      rw [if_neg (fun hcon => hov ⟨hcon.1, m, rfl, hcon.2⟩), if_neg hdev]
    | cons m2 rest2 =>
      show (if c.Driver = ExternalRootFSDriverDevice then externalDevice fs c
        else .ok (m :: m2 :: rest2)) = _
      rw [if_neg hdev]

theorem c4_witness :
    HookMounts fsNone ⟨"overlay", "", "", "", "", "", ""⟩
        [⟨"bind", "/s1", ["rw"]⟩, ⟨"bind", "/s2", ["ro"]⟩]
      = .ok [⟨"bind", "/s1", ["rw"]⟩, ⟨"bind", "/s2", ["ro"]⟩] :=
  c4_branch_passthrough fsNone ⟨"overlay", "", "", "", "", "", ""⟩
    [⟨"bind", "/s1", ["rw"]⟩, ⟨"bind", "/s2", ["ro"]⟩]
    (by decide)
    (by rintro ⟨-, m, hm, -⟩; simp at hm)

/-- C5 counterexample: with `DeviceConfig` and `DeviceMountOpts` both
absent (empty), driver `device` and no device name, the layered variant
fails with the missing-device error while the simpler variant returns the
caller's mounts unchanged — so the two variants are not equivalent on all
such inputs. -/
theorem c5_counterexample :
    HookMounts fsNone ⟨"device", "", "", "", "", "", ""⟩ []
      = .error RootFSError.missingDevice
    ∧ HookMounts2 fsNone (toConfig2 ⟨"device", "", "", "", "", "", ""⟩) []
      = .ok []
    ∧ (Except.error RootFSError.missingDevice
        : Except RootFSError (List Mount)) ≠ .ok [] :=
  ⟨rfl, rfl, fun h => Except.noConfusion h⟩

/-- C5 amended: when `DeviceConfig` and `DeviceMountOpts` are absent
(empty) and, additionally, whenever the driver is `device` both the device
name and the filesystem type are non-empty, the layered variant and the
simpler variant produce exactly the same result on the same mounts and
configuration.  (Without the extra condition they differ: on an empty
device the layered variant errors while the simpler one passes the mounts
through, and on an empty fstype the layered variant defaults to `"xfs"`
while the simpler one uses the empty string.) -/
theorem c5_amended_equiv (fs : FS) (c : ExternalRootFSConfig)
    (mounts : List Mount)
    (hdc : c.DeviceConfig = "") (hmo : c.DeviceMountOpts = "")
    (hdev : c.Driver = ExternalRootFSDriverDevice
      → c.Device ≠ "" ∧ c.DeviceFSType ≠ "") :
    HookMounts fs c mounts = HookMounts2 fs (toConfig2 c) mounts := by
  have hext : c.Driver = ExternalRootFSDriverDevice →
      externalDevice fs c
        = .ok [{ type := c.DeviceFSType, source := c.Device,
                 options := ["rw"] }] := by
    intro hd
    obtain ⟨hdv, hft⟩ := hdev hd
    unfold externalDevice
    simp [hdc, hmo, hdv, hft]
  cases mounts with
  | nil =>
    show (if c.Driver = ExternalRootFSDriverDevice then externalDevice fs c
        else .ok [])
      = (if (toConfig2 c).Driver = ExternalRootFSDriverDevice
            ∧ (toConfig2 c).Device ≠ ""
        then .ok [{ type := (toConfig2 c).DeviceFSType,
                    source := (toConfig2 c).Device, options := ["rw"] }]
        else .ok [])
    simp only [toConfig2]
    by_cases hd : c.Driver = ExternalRootFSDriverDevice
    · rw [if_pos hd, hext hd, if_pos ⟨hd, (hdev hd).1⟩]
    · rw [if_neg hd, if_neg (fun hcon => hd hcon.1)]
  | cons m rest =>
    cases rest with
    | nil =>
      show (if c.Driver = ExternalRootFSDriverOverlay ∧ m.type = "overlay"
          then overlayOverride fs c.OverlayLower c.OverlayUpper m
          else if c.Driver = ExternalRootFSDriverDevice
          then externalDevice fs c
          else .ok [m])
        = (if (toConfig2 c).Driver = ExternalRootFSDriverOverlay
              ∧ m.type = "overlay"
          then overlayOverride fs (toConfig2 c).OverlayLower
            (toConfig2 c).OverlayUpper m
          else if (toConfig2 c).Driver = ExternalRootFSDriverDevice
              ∧ (toConfig2 c).Device ≠ ""
          then .ok [{ type := (toConfig2 c).DeviceFSType,
                      source := (toConfig2 c).Device, options := ["rw"] }]
          else .ok [m])
      simp only [toConfig2]
      by_cases hov : c.Driver = ExternalRootFSDriverOverlay
          ∧ m.type = "overlay"
      · rw [if_pos hov, if_pos hov]
      · rw [if_neg hov, if_neg hov]
        by_cases hd : c.Driver = ExternalRootFSDriverDevice
        · rw [if_pos hd, hext hd, if_pos ⟨hd, (hdev hd).1⟩]
        · rw [if_neg hd, if_neg (fun hcon => hd hcon.1)]
    | cons m2 rest2 =>
      show (if c.Driver = ExternalRootFSDriverDevice then externalDevice fs c
          else .ok (m :: m2 :: rest2))
        = (if (toConfig2 c).Driver = ExternalRootFSDriverDevice
              ∧ (toConfig2 c).Device ≠ ""
          then .ok [{ type := (toConfig2 c).DeviceFSType,
                      source := (toConfig2 c).Device, options := ["rw"] }]
          else .ok (m :: m2 :: rest2))
      simp only [toConfig2]
      by_cases hd : c.Driver = ExternalRootFSDriverDevice
      · rw [if_pos hd, hext hd, if_pos ⟨hd, (hdev hd).1⟩]
      · rw [if_neg hd, if_neg (fun hcon => hd hcon.1)]

theorem c5_witness :
    HookMounts fsNone ⟨"device", "", "", "/dev/a", "ext4", "", ""⟩ []
      = HookMounts2 fsNone
          (toConfig2 ⟨"device", "", "", "/dev/a", "ext4", "", ""⟩) [] :=
  c5_amended_equiv fsNone ⟨"device", "", "", "/dev/a", "ext4", "", ""⟩ []
    rfl rfl (fun _ => ⟨by decide, by decide⟩)

/-- C9: `WriteMounts` performs zero filesystem writes (and returns
success) when the mount list is empty; otherwise it requests exactly one
write of the JSON serialization, with fixed permissions `0600`, to the
file `mounts.json` under `path` (an existing file is overwritten, as
`os.WriteFile` truncates). -/
theorem c9_write_mounts (path : String) (mounts : List Mount)
    (hne : mounts ≠ []) :
    WriteMounts path [] = []
    ∧ WriteMounts path mounts
      = [{ dir := path, file := MountConfigName,
           content := marshalMounts mounts, perm := 0o600 }] := by
  constructor
  · rfl
  · unfold WriteMounts
    rw [if_neg hne]
    rfl

theorem c9_witness :
    WriteMounts "/run/c" [] = []
    ∧ WriteMounts "/run/c" [⟨"overlay", "overlay", ["rw"]⟩]
      = [{ dir := "/run/c", file := MountConfigName,
           content :=
             "[\x7b\"Type\":\"overlay\",\"Source\":\"overlay\",\"Options\":[\"rw\"]\x7d]",
           perm := 0o600 }] :=
  c9_write_mounts "/run/c" [⟨"overlay", "overlay", ["rw"]⟩] (by decide)
